import Mathlib

/-!
Verification development for salt/cli/support/collector.py: a shallow
embedding of the sectioned archive writer (SupportDataCollector), the
profile-driven action engine (SaltSupport), and the run lifecycle, with
theorems checking the specification's claims against the embedded code.

Modelling conventions:
- A Python file handle is represented by the path of the file it refers to.
- The archive (a bz2 tar file) is represented by the list of members written
  to it, in write order.
- Console output (salt.cli.support.console.MessagesOutput) is a list of
  emitted lines tagged by kind; the indent argument is not modelled.
- The structured-output rendering backend (salt.output.try_printout with the
  yaml safe_dump fallback) is an external collaborator; it is passed in as a
  function argument named render and never inspected.
- Python exceptions are modelled with Except String; the string describes
  the raised exception.
-/

namespace SaltSupportModel

/-- A Python value as far as the collector inspects it: the code only asks
whether a value is a dict, and otherwise stringifies it. Mapping values are
kept as strings (their rendering never inspects deeper structure). -/
inductive Val where
  | str (s : String)
  | dict (kvs : List (String × String))
deriving DecidableEq, Repr

/-- One entry of the in-memory buffer of the current section: the Python code
stores a one-key dict mapping the title to either rendered text or an open
file handle (modelled by its path). -/
inductive SectionData where
  | text (content : String)
  | file (path : String)
deriving DecidableEq, Repr

/-- One member of the tar archive: either a physical file added under its own
path (tarfile.add) or a generated text blob added under a member path
(tarfile.addfile). -/
inductive Member where
  | file (path : String)
  | text (path : String) (content : String)
deriving DecidableEq, Repr

/-- One line of console output, tagged with the MessagesOutput method that
produced it. -/
inductive ConsoleLine where
  | put (s : String)
  | error (s : String)
  | warning (s : String)
deriving DecidableEq, Repr

/-- State of SupportDataCollector: archive_path, the open/closed archive
handle (isOpen plus the members written so far), the current section buffer
and its name, the timestamp root for member paths, and the console. -/
structure State where
  archive_path : String
  isOpen : Bool := false
  members : List Member := []
  current_section : Option (List (String × SectionData)) := none
  current_section_name : Option String := none
  default_root : String := "snapshot"
  console : List ConsoleLine := []
deriving DecidableEq, Repr

/-- Python str() of an optional section name as interpolated into the member
path format string: None prints as the four characters None. -/
def optStr : Option String → String
  | some s => s
  | none => "None"

/-- SupportDataCollector.__init__: fresh collector, archive handle None,
no current section. -/
def init (name root : String) : State :=
  { archive_path := name, default_root := root }

/-- SupportDataCollector.open: raises if the archive handle is already set,
otherwise creates the archive for writing (a fresh, empty file). -/
def open' (c : State) : Except String State :=
  if c.isOpen then .error "Archive already opened."
  else .ok { c with isOpen := true, members := [] }

/-- The item that buff.write renders for one titled text entry of a section:
title, an underline of dashes of the title's length, a blank line, the
rendered body, and a trailing blank-line separator. -/
def renderItem (title content : String) : String :=
  title ++ "\n" ++ String.mk (List.replicate title.length '-') ++ "\n\n"
    ++ content ++ "\n\n\n"

/-- Accumulator of the flush loop in _flush_content: members added so far
(file items are added to the archive as they are encountered), console trace
lines, the in-memory text buffer, and the dirty flag. -/
structure FlushAcc where
  new_members : List Member
  new_console : List ConsoleLine
  buff : String
  dirty : Bool
deriving DecidableEq, Repr

/-- The loop body of _flush_content: a file item is added to the archive
under its own path at once (with a console trace of its name); a text item is
rendered into the buffer and marks it dirty. -/
def flushLoop (acc : FlushAcc) : List (String × SectionData) → FlushAcc
  | [] => acc
  | (_, .file p) :: rest =>
      flushLoop { acc with new_members := acc.new_members ++ [.file p],
                           new_console := acc.new_console ++ [.put p] } rest
  | (title, .text s) :: rest =>
      flushLoop { acc with buff := acc.buff ++ renderItem title s,
                           dirty := true } rest

/-- SupportDataCollector._flush_content: nothing happens when no section was
ever begun; otherwise every file item is added to the archive as its own
member and, if any text item made the buffer dirty, the buffer is added as
one member under default_root slash section name. Writing a nonempty section
with a closed archive handle raises (None has no add or addfile). The section
buffer itself is not cleared by flushing. -/
def flush_content (c : State) : Except String State :=
  match c.current_section with
  | none => .ok c
  | some items =>
    if items.isEmpty then .ok c
    else if !c.isOpen then .error "NoneType object has no attribute add"
    else
      let acc := flushLoop ⟨[], [], "", false⟩ items
      .ok { c with
        members := c.members ++ acc.new_members ++
          (if acc.dirty then
            [.text (c.default_root ++ "/" ++ optStr c.current_section_name) acc.buff]
          else []),
        console := c.console ++ acc.new_console }

/-- SupportDataCollector.discard_current: replace the current section with an
empty one, without flushing; the name defaults to None. -/
def discard_current (c : State) (name : Option String) : State :=
  { c with current_section := some [], current_section_name := name }

/-- SupportDataCollector.add: flush the current section if it is truthy (a
nonempty list), then start a fresh empty section with the given name. -/
def add (c : State) (name : String) : Except String State := do
  let c ← match c.current_section with
    | some items => if items.isEmpty then pure c else flush_content c
    | none => pure c
  pure (discard_current c (some name))

/-- SupportDataCollector.close: raises if the archive handle is already None;
otherwise flushes the current section, closes the archive and clears the
handle. The section buffer and its name are not reset. -/
def close (c : State) : Except String State := do
  if !c.isOpen then .error "Archive already closed"
  else do
    let c ← flush_content c
    pure { c with isOpen := false }

/-- The dict wrapping in SupportDataCollector.write: a non-dict value is
replaced by a one-key raw-content dict holding its str(). -/
def wrapData : Val → Val
  | .dict kvs => .dict kvs
  | .str s => .dict [("raw-content", s)]

/-- SupportDataCollector.write: wrap non-dict data, render it through the
rendering backend (try_printout with yaml fallback, passed as render), and
append the titled text to the current section; appending raises when no
section was ever begun (the buffer is still None). -/
def write (render : Val → String) (c : State) (title : String) (data : Val) :
    Except String State :=
  match c.current_section with
  | none => .error "NoneType object has no attribute append"
  | some items =>
      .ok { c with
            current_section := some (items ++ [(title, .text (render (wrapData data)))]) }

/-- SupportDataCollector.link: open the path as a file handle (assumed to
succeed; the handle is modelled by the path) and append it as a titled file
item to the current section; appending raises when no section was ever
begun. -/
def link (c : State) (title path : String) : Except String State :=
  match c.current_section with
  | none => .error "NoneType object has no attribute append"
  | some items =>
      .ok { c with current_section := some (items ++ [(title, .file path)]) }

/-- Python str.split on the dot character, character-list level: splitting an
empty string yields one empty group; every dot starts a new group. -/
def splitDot : List Char → List (List Char)
  | [] => [[]]
  | c :: rest =>
    if c = '.' then [] :: splitDot rest
    else
      match splitDot rest with
      | [] => [[c]]
      | g :: gs => (c :: g) :: gs

/-- One element of the args list of a raw action entry: either a bare value
(not a dict) or a dict of keyword bindings merged into kwargs. -/
inductive RawArg where
  | bare (v : Val)
  | kw (pairs : List (String × Val))
deriving DecidableEq, Repr

/-- One raw action entry of a profile category: a one-key mapping from the
action name to its optional info text and optional args list. -/
structure ActionMeta where
  name : String
  info : Option String := none
  args : List RawArg := []
deriving DecidableEq, Repr

/-- The normalized calling point built by _get_action: function name,
positional args, keyword args, and the salt.int.intfunc marker. -/
structure ActionConf where
  fn : String
  arg : List Val := []
  kwargs : List (String × Val) := []
  intfunc : Bool := false
deriving DecidableEq, Repr

/-- Python dict assignment for one key on an insertion-ordered dict with
unique keys: replace the value in place if the key is present, else append
the binding at the end. -/
def dictSet : List (String × Val) → String → Val → List (String × Val)
  | [], k, v => [(k, v)]
  | (k', v') :: rest, k, v =>
    if k' = k then (k, v) :: rest else (k', v') :: dictSet rest k v

/-- Python dict.update: fold every binding of the new dict into the old one
with dictSet, left to right. -/
def dictUpdate (m new : List (String × Val)) : List (String × Val) :=
  new.foldl (fun acc p => dictSet acc p.1 p.2) m

/-- Python dict lookup on an insertion-ordered dict: the first binding of the
key (keys are unique, so the only one). -/
def pyGet : List (String × Val) → String → Option Val
  | [], _ => none
  | (k', v) :: rest, k => if k' = k then some v else pyGet rest k

/-- The loop body of _get_action over the args list: a bare value is
appended to the positional args, a dict is merged into the kwargs by
dict.update. -/
def actionArgsFold (acc : List Val × List (String × Val)) (r : RawArg) :
    List Val × List (String × Val) :=
  match r with
  | .bare v => (acc.1 ++ [v], acc.2)
  | .kw pairs => (acc.1, dictUpdate acc.2 pairs)

/-- SaltSupport._get_action: the function name is the single key of the raw
mapping; the entry is internal when the name splits on dots into a single
part; bare args are appended to positional arg in order and dict args are
merged into kwargs by dict.update; info defaults to Action for name. -/
def _get_action (a : ActionMeta) : String × ActionConf :=
  let fn := a.name
  let intfunc := (splitDot fn.toList).length - 1 == 0
  let info := a.info.getD ("Action for " ++ fn)
  let acc := a.args.foldl actionArgsFold ([], [])
  (info, { fn := fn, arg := acc.1, kwargs := acc.2, intfunc := intfunc })

/-- Outcome of one invocation of the execution backend
(salt.cli.caller call): a returned value, a SystemExit, or an arbitrary
exception carrying its message. -/
inductive CallResult where
  | ok (v : Val)
  | sysExit
  | exc (msg : String)
deriving DecidableEq, Repr

/-- The execution backend (Caller.factory plus call) as an external
collaborator: it receives the per-call configuration (the fields of the
deep-copied base configuration that _local_call varies) and returns or
raises. -/
def Backend := ActionConf → CallResult

/-- SaltSupport._local_call: invoke the backend on the merged configuration;
a SystemExit becomes the literal unavailability message and an arbitrary
exception becomes the unhandled-exception message, each also emitted as a
console error; the resulting value is returned, never raised. -/
def _local_call (backend : Backend) (c : State) (conf : ActionConf) :
    Val × State :=
  match backend conf with
  | .ok v => (v, c)
  | .sysExit =>
      let ret := "Data is not available at this moment"
      (.str ret, { c with console := c.console ++ [.error ret] })
  | .exc m =>
      let ret := "Unhandled exception occurred: " ++ m
      (.str ret, { c with console := c.console ++ [.error ret] })

/-- An internal function (salt.cli.support.intfunc): called with the
collector as first argument plus the positional and keyword args; it mutates
the collector (console writes, section items, linked files) and may raise. -/
def IntFunc := State → List Val → List (String × Val) → Except String State

/-- The internal-function registry (the attributes of
salt.cli.support.intfunc) as an external collaborator. -/
def IntRegistry := String → Option IntFunc

/-- SaltSupport._internal_function_call: look the name up in the registry;
a missing name runs the stub, which emits a console error and returns the
message (the return value is dropped by the caller). -/
def _internal_function_call (reg : IntRegistry) (c : State)
    (conf : ActionConf) : Except String State :=
  match reg conf.fn with
  | some f => f c conf.arg conf.kwargs
  | none =>
      .ok { c with console :=
        c.console ++ [.error ("Function " ++ conf.fn ++ " is not available")] }

/-- The per-action body of the loop in SaltSupport.collect_master_data: an
external action announces itself on the console, runs _local_call and writes
the result under its info title; an internal action first discards the
current section (name reset to None) and then runs the internal function. -/
def runAction (render : Val → String) (backend : Backend) (reg : IntRegistry)
    (c : State) (a : ActionMeta) : Except String State :=
  let ga := _get_action a
  if !ga.2.intfunc then
    let c := { c with console := c.console ++ [.put ("Collecting " ++ ga.1.toLower)] }
    let r := _local_call backend c ga.2
    write render r.2 ga.1 r.1
  else
    _internal_function_call reg (discard_current c none) ga.2

/-- The inner loop of SaltSupport.collect_master_data over the actions of one
category. -/
def runActions (render : Val → String) (backend : Backend) (reg : IntRegistry)
    (c : State) (actions : List ActionMeta) : Except String State :=
  actions.foldlM (runAction render backend reg) c

/-- The per-category body of SaltSupport.collect_master_data: announce the
category, begin a section named after it, then run its actions in order. -/
def runCategory (render : Val → String) (backend : Backend) (reg : IntRegistry)
    (c : State) (cat : String × List ActionMeta) : Except String State := do
  let c := { c with console := c.console ++ [.put cat.1] }
  let c ← add c cat.1
  runActions render backend reg c cat.2

/-- SaltSupport.collect_master_data over an already-loaded profile (the
scenario returned by get_profile, an insertion-ordered mapping from category
names to action lists). -/
def collect_master_data (render : Val → String) (backend : Backend)
    (reg : IntRegistry) (scenario : List (String × List ActionMeta))
    (c : State) : Except String State :=
  scenario.foldlM (runCategory render backend reg) c

/-- The filesystem as the run lifecycle observes it: the set of existing
paths, as a list. -/
structure FS where
  paths : List String
deriving DecidableEq, Repr

/-- os.path.exists. -/
def pathExists (fs : FS) (p : String) : Bool :=
  decide (p ∈ fs.paths)

/-- os.unlink. -/
def unlink (fs : FS) (p : String) : FS :=
  ⟨fs.paths.filter (fun q => q ≠ p)⟩

/-- The configuration fields the pre-flight check and cleanup read. -/
structure RunConfig where
  support_archive : String
  support_archive_force_overwrite : Bool
deriving DecidableEq, Repr

/-- salt.defaults.exitcodes.EX_OK. -/
def EX_OK : Nat := 0

/-- salt.defaults.exitcodes.EX_SOFTWARE (sysexits software error). -/
def EX_SOFTWARE : Nat := 70

/-- SaltSupport._check_existing_archive_: when the target archive path
exists, with the force flag warn and delete it and proceed, without the flag
warn and refuse; when it does not exist, proceed silently. Returns the
filesystem, the console lines emitted, and whether to proceed. -/
def _check_existing_archive_ (cfg : RunConfig) (fs : FS) :
    FS × List ConsoleLine × Bool :=
  if pathExists fs cfg.support_archive then
    if cfg.support_archive_force_overwrite then
      (unlink fs cfg.support_archive,
       [.warning ("Overwriting existing archive: " ++ cfg.support_archive)],
       true)
    else
      (fs,
       [.warning ("File " ++ cfg.support_archive ++ " already exists.")],
       false)
  else (fs, [], true)

/-- Outcome of a run: the filesystem after it, the console output, and the
process exit code. -/
structure RunOutcome where
  fs : FS
  console : List ConsoleLine
  exit_code : Nat
deriving DecidableEq, Repr

/-- The collection phase of SaltSupport.run (constructing the collector,
open, collect_master_data, collect_internal_data, collect_targets_data,
close) as one opaque step: given the filesystem it runs against, it returns
the filesystem with the written archive plus its console output, or raises. -/
def CollectPhase := FS → Except String (FS × List ConsoleLine)

/-- The collection branch of SaltSupport.run (the path taken when no listing
mode is selected), followed by the cleanup stage: pre-flight check of the
existing archive; if it passes, run the collection phase, mapping an
uncaught exception to a console error and EX_SOFTWARE and success to the
final highlight; if it fails, keep the success exit code and do nothing;
finally, when the exit code is nonzero and the archive path exists, warn and
delete it. -/
def run (cfg : RunConfig) (fs : FS) (collect : CollectPhase) : RunOutcome :=
  let checked := _check_existing_archive_ cfg fs
  let outcome : RunOutcome :=
    if checked.2.2 then
      match collect checked.1 with
      | .ok (fs', con') =>
          { fs := fs',
            console := checked.2.1 ++ con' ++
              [.put ("Support data has been written to \"" ++
                cfg.support_archive ++ "\" file.")],
            exit_code := EX_OK }
      | .error e =>
          { fs := checked.1, console := checked.2.1 ++ [.error e],
            exit_code := EX_SOFTWARE }
    else { fs := checked.1, console := checked.2.1, exit_code := EX_OK }
  if outcome.exit_code ≠ 0 && pathExists outcome.fs cfg.support_archive then
    { outcome with
      fs := unlink outcome.fs cfg.support_archive,
      console := outcome.console ++ [.warning "Terminated earlier, cleaning up"] }
  else outcome

/-- The file members produced by flushing a section buffer: one archive
member per file item, in buffer order. -/
def fileMembers : List (String × SectionData) → List Member
  | [] => []
  | (_, .file p) :: rest => .file p :: fileMembers rest
  | (_, .text _) :: rest => fileMembers rest

/-- The console trace lines produced by flushing a section buffer: one put of
the file name per file item, in buffer order. -/
def filePuts : List (String × SectionData) → List ConsoleLine
  | [] => []
  | (_, .file p) :: rest => .put p :: filePuts rest
  | (_, .text _) :: rest => filePuts rest

/-- The titled text items of a section buffer, in buffer order. -/
def textItems : List (String × SectionData) → List (String × String)
  | [] => []
  | (_, .file _) :: rest => textItems rest
  | (t, .text s) :: rest => (t, s) :: textItems rest

/-- Whether a section buffer holds at least one text item (the dirty flag the
flush loop ends with). -/
def sectionHasText (items : List (String × SectionData)) : Bool :=
  items.any (fun it => match it.2 with | .text _ => true | .file _ => false)

/-- The text blob a section buffer flushes to: the renderings of its text
items concatenated in buffer order. -/
def sectionFlat : List (String × SectionData) → String
  | [] => ""
  | (_, .file _) :: rest => sectionFlat rest
  | (t, .text s) :: rest => renderItem t s ++ sectionFlat rest

/-- The number of generated text members among a list of archive members. -/
def textMemberCount (ms : List Member) : Nat :=
  (ms.filter (fun m => match m with | .text _ _ => true | .file _ => false)).length

/-- One call of a client driving an open collector: begin a section, write a
titled value, or link a file. -/
inductive Op where
  | beginSection (name : String)
  | addItem (title : String) (data : Val)
  | linkItem (title : String) (path : String)
deriving DecidableEq, Repr

/-- Dispatch of one client call to the collector. -/
def runOp (render : Val → String) (c : State) : Op → Except String State
  | .beginSection n => add c n
  | .addItem t d => write render c t d
  | .linkItem t p => link c t p

/-- A sequence of client calls against the collector. -/
def runOps (render : Val → String) (c : State) (ops : List Op) :
    Except String State :=
  ops.foldlM (runOp render)  c

/-- Stated from the claim: the number of sections that receive at least one
text item over a call sequence, tracking whether a section is active and
whether the active one holds text yet; the final section counts too (it is
flushed by close). -/
def specTextCount : List Op → Option Bool → Nat
  | [], none => 0
  | [], some b => if b then 1 else 0
  | .beginSection _ :: rest, none => specTextCount rest (some false)
  | .beginSection _ :: rest, some b =>
      (if b then 1 else 0) + specTextCount rest (some false)
  | .addItem _ _ :: rest, st => specTextCount rest (st.map (fun _ => true))
  | .linkItem _ _ :: rest, st => specTextCount rest st

/-- The abstraction of a collector's section state used by the counting
argument: no section, or a section with its has-text flag. -/
def sectionFlag : Option (List (String × SectionData)) → Option Bool
  | none => none
  | some items => some (sectionHasText items)

/-- The number of text members flushing the given section state would add to
the archive: one when it holds a text item, zero otherwise. -/
def secContrib : Option (List (String × SectionData)) → Nat
  | none => 0
  | some items => if sectionHasText items then 1 else 0

/-- Stated from the claim: the positional arguments of an action entry are
its bare args in source order. -/
def bareArgs (args : List RawArg) : List Val :=
  args.filterMap (fun r => match r with | .bare v => some v | .kw _ => none)

/-- Stated from the claim: the last value bound to a key among the keyword
mappings of an args list, scanning all bindings in source order with later
bindings overwriting earlier ones. -/
def lastKw (args : List RawArg) (k : String) : Option Val :=
  args.foldl
    (fun acc r =>
      match r with
      | .bare _ => acc
      | .kw pairs =>
          pairs.foldl (fun a p => if p.1 = k then some p.2 else a) acc)
    none

/-- A sample renderer for concrete runs: a raw-content wrapper renders to its
payload, anything else to a fixed marker. -/
def sampleRender : Val → String
  | .dict [("raw-content", s)] => s
  | _ => "rendered"

/-- A sample execution backend for concrete runs: every call returns the
string EXT. -/
def sampleBackend : Backend := fun _ => .ok (.str "EXT")

/-- A sample internal-function registry for concrete runs: myfn links the
hosts file, everything else is missing. -/
def sampleRegistry : IntRegistry := fun n =>
  if n = "myfn" then some (fun c _ _ => link c "hosts" "/etc/hosts") else none

/-- A sample profile for concrete runs: one category with one external action
followed by one internal action. -/
def sampleProfile : List (String × List ActionMeta) :=
  [("category", [{ name := "test.ping", info := some "Ping" },
                 { name := "myfn" }])]

theorem flushLoop_eq (items : List (String × SectionData)) (acc : FlushAcc) :
    flushLoop acc items =
      ⟨acc.new_members ++ fileMembers items, acc.new_console ++ filePuts items,
       acc.buff ++ sectionFlat items, acc.dirty || sectionHasText items⟩ := by
  induction items generalizing acc with
  | nil => simp [flushLoop, fileMembers, filePuts, sectionFlat, sectionHasText]
  | cons it rest ih =>
    obtain ⟨t, d⟩ := it
    cases d with
    | file p =>
      simp [flushLoop, fileMembers, filePuts, sectionFlat, sectionHasText, ih,
        List.any_cons]
    | text s =>
      simp [flushLoop, fileMembers, filePuts, sectionFlat, sectionHasText, ih,
        List.any_cons, String.append_assoc]

theorem flush_content_open (c : State) (items : List (String × SectionData))
    (hopen : c.isOpen = true) (hsec : c.current_section = some items) :
    flush_content c = .ok { c with
      members := c.members ++ fileMembers items ++
        (if sectionHasText items then
          [.text (c.default_root ++ "/" ++ optStr c.current_section_name)
            (sectionFlat items)]
        else []),
      console := c.console ++ filePuts items } := by
  unfold flush_content
  rw [hsec]
  cases items with
  | nil => simp [fileMembers, filePuts, sectionHasText, ← hsec]
  | cons it rest =>
    simp only [List.isEmpty_cons, hopen, Bool.not_true, Bool.false_eq_true,
      if_false, ite_false, flushLoop_eq]
    rfl

theorem textMemberCount_append (a b : List Member) :
    textMemberCount (a ++ b) = textMemberCount a + textMemberCount b := by
  simp [textMemberCount, List.filter_append]

theorem textMemberCount_fileMembers (items : List (String × SectionData)) :
    textMemberCount (fileMembers items) = 0 := by
  induction items with
  | nil => rfl
  | cons it rest ih =>
    obtain ⟨t, d⟩ := it
    cases d with
    | file p => simpa [fileMembers, textMemberCount] using ih
    | text s => simpa [fileMembers] using ih

theorem sectionHasText_append_text (items : List (String × SectionData))
    (t s : String) :
    sectionHasText (items ++ [(t, .text s)]) = true := by
  simp [sectionHasText, List.any_append]

theorem sectionHasText_append_file (items : List (String × SectionData))
    (t p : String) :
    sectionHasText (items ++ [(t, .file p)]) = sectionHasText items := by
  simp [sectionHasText, List.any_append]

theorem write_some (render : Val → String) (c : State) (t : String) (d : Val)
    (items : List (String × SectionData)) (hsec : c.current_section = some items) :
    write render c t d =
      .ok { c with
            current_section := some (items ++ [(t, .text (render (wrapData d)))]) } := by
  simp [write, hsec]

theorem link_some (c : State) (t p : String)
    (items : List (String × SectionData)) (hsec : c.current_section = some items) :
    link c t p = .ok { c with current_section := some (items ++ [(t, .file p)]) } := by
  simp [link, hsec]

theorem add_open (c : State) (n : String) (hopen : c.isOpen = true) :
    ∃ c₁, add c n = .ok c₁ ∧ c₁.isOpen = true
      ∧ c₁.current_section = some [] ∧ c₁.current_section_name = some n
      ∧ textMemberCount c₁.members =
          textMemberCount c.members + secContrib c.current_section := by
  cases hcs : c.current_section with
  | none =>
    refine ⟨discard_current c (some n), ?_, hopen, rfl, rfl, ?_⟩
    · unfold add
      rw [hcs]
      simp [Bind.bind, Except.bind, pure, Except.pure]
    · simp [discard_current, secContrib, hcs]
  | some items =>
    cases items with
    | nil =>
      refine ⟨discard_current c (some n), ?_, hopen, rfl, rfl, ?_⟩
      · unfold add
        rw [hcs]
        simp [List.isEmpty_nil, Bind.bind, Except.bind, pure, Except.pure]
      · simp [discard_current, secContrib, hcs, sectionHasText]
    | cons it rest =>
      refine ⟨discard_current { c with
          members := c.members ++ fileMembers (it :: rest) ++
            (if sectionHasText (it :: rest) then
              [.text (c.default_root ++ "/" ++ optStr c.current_section_name)
                (sectionFlat (it :: rest))]
            else []),
          console := c.console ++ filePuts (it :: rest) } (some n),
        ?_, hopen, rfl, rfl, ?_⟩
      · unfold add
        rw [hcs]
        simp [List.isEmpty_cons, flush_content_open c (it :: rest) hopen hcs,
          Bind.bind, Except.bind, pure, Except.pure]
        rw [discard_current, discard_current]
      · simp only [discard_current, secContrib, hcs]
        rw [textMemberCount_append, textMemberCount_append, textMemberCount_fileMembers]
        cases h : sectionHasText (it :: rest) <;> simp [textMemberCount]

theorem close_textCount (c c' : State) (hopen : c.isOpen = true)
    (h : close c = .ok c') :
    textMemberCount c'.members =
      textMemberCount c.members + secContrib c.current_section := by
  unfold close at h
  rw [hopen] at h
  simp only [Bool.not_true, Bool.false_eq_true, if_false, ite_false] at h
  cases hcs : c.current_section with
  | none =>
    unfold flush_content at h
    rw [hcs] at h
    simp at h
    subst h
    simp [secContrib]
  | some items =>
    rw [flush_content_open c items hopen hcs] at h
    simp at h
    subst h
    rw [textMemberCount_append, textMemberCount_append, textMemberCount_fileMembers]
    cases ht : sectionHasText items <;> simp [secContrib, textMemberCount, ht]

theorem runOps_textCount (render : Val → String) (ops : List Op) :
    ∀ c c' : State, runOps render c ops = .ok c' → c.isOpen = true →
      c'.isOpen = true ∧
      textMemberCount c'.members + secContrib c'.current_section
        = textMemberCount c.members + specTextCount ops (sectionFlag c.current_section) := by
  induction ops with
  | nil =>
    intro c c' h hopen
    simp [runOps, List.foldlM, pure, Except.pure] at h
    subst h
    refine ⟨hopen, ?_⟩
    cases hcs : c.current_section <;>
      simp [specTextCount, sectionFlag, secContrib, hcs]
  | cons op rest ih =>
    intro c c' h hopen
    rw [runOps, List.foldlM_cons] at h
    cases op with
    | beginSection n =>
      obtain ⟨c₁, hadd, hop1, hsec1, hname1, hcount1⟩ := add_open c n hopen
      rw [show runOp render c (.beginSection n) = add c n from rfl, hadd] at h
      simp only [Bind.bind, Except.bind] at h
      obtain ⟨hop', hcnt⟩ := ih c₁ c' h hop1
      refine ⟨hop', ?_⟩
      rw [hcnt, hcount1, hsec1]
      cases hcs : c.current_section with
      | none => simp [specTextCount, sectionFlag, secContrib, sectionHasText]
      | some items =>
        simp only [specTextCount, sectionFlag, secContrib, sectionHasText,
          List.any_nil]
        omega
    | addItem t d =>
      cases hcs : c.current_section with
      | none =>
        rw [show runOp render c (.addItem t d) = write render c t d from rfl] at h
        simp [write, hcs, Bind.bind, Except.bind] at h
      | some items =>
        rw [show runOp render c (.addItem t d) = write render c t d from rfl,
          write_some render c t d items hcs] at h
        simp only [Bind.bind, Except.bind] at h
        obtain ⟨hop', hcnt⟩ := ih _ c' h hopen
        refine ⟨hop', ?_⟩
        rw [hcnt]
        simp [specTextCount, sectionFlag, secContrib, hcs,
          sectionHasText_append_text]
    | linkItem t p =>
      cases hcs : c.current_section with
      | none =>
        rw [show runOp render c (.linkItem t p) = link c t p from rfl] at h
        simp [link, hcs, Bind.bind, Except.bind] at h
      | some items =>
        rw [show runOp render c (.linkItem t p) = link c t p from rfl,
          link_some c t p items hcs] at h
        simp only [Bind.bind, Except.bind] at h
        obtain ⟨hop', hcnt⟩ := ih _ c' h hopen
        refine ⟨hop', ?_⟩
        rw [hcnt]
        simp [specTextCount, sectionFlag, secContrib, hcs,
          sectionHasText_append_file]

/-- C3: for every sequence of beginSection (add), addItem (write) and link
calls that runs successfully against a freshly opened collector, the number
of text members in the archive after close equals the number of sections
that received at least one non-file item; a section with zero text items
(including one holding only file items) produces no text member. -/
theorem c3_text_member_count (render : Val → String) (ops : List Op)
    (n r : String) (c₂ : State)
    (h : (do
      let c ← open' (init n r)
      let c ← runOps render c ops
      close c) = .ok c₂) :
    textMemberCount c₂.members = specTextCount ops none := by
  have hopen : open' (init n r) = .ok { init n r with isOpen := true, members := [] } := rfl
  rw [hopen] at h
  simp only [Bind.bind, Except.bind] at h
  cases hr : runOps render { init n r with isOpen := true, members := [] } ops with
  | error e => rw [hr] at h; simp at h
  | ok c₁ =>
    rw [hr] at h
    obtain ⟨hop1, hcnt⟩ := runOps_textCount render ops _ c₁ hr rfl
    have hc2 := close_textCount c₁ c₂ hop1 h
    rw [hc2, hcnt]
    simp [init, textMemberCount, sectionFlag]

/-- Witness for C3 at a concrete trace: one section a with one text item and
the implicit close produce exactly one text member; the count matches the
claim-side count. -/
theorem c3_text_member_count_witness :
    textMemberCount (State.members ⟨"ar", false,
      [.text "root/a" "T\n-\n\nx\n\n\n"], some [("T", .text "x")],
      some "a", "root", []⟩) =
    specTextCount [.beginSection "a", .addItem "T" (.str "x")] none :=
  c3_text_member_count sampleRender [.beginSection "a", .addItem "T" (.str "x")]
    "ar" "root" _ (by rfl)

/-- C7: flushing a section serializes its text items in the exact order they
were added into one member whose content is the in-order concatenation of
each item's rendering, where a rendering is the title, an underline of
dashes whose length equals the title's length, the body, and blank-line
separation; this holds for any item count, and with no text item no member
is produced. -/
theorem c7_flush_order (c : State) (items : List (String × SectionData))
    (hopen : c.isOpen = true) (hsec : c.current_section = some items) :
    flush_content c = .ok { c with
      members := c.members ++ fileMembers items ++
        (if sectionHasText items then
          [.text (c.default_root ++ "/" ++ optStr c.current_section_name)
            (sectionFlat items)]
        else []),
      console := c.console ++ filePuts items }
    ∧ (∀ t s rest, sectionFlat ((t, SectionData.text s) :: rest)
        = renderItem t s ++ sectionFlat rest)
    ∧ (∀ t p rest, sectionFlat ((t, SectionData.file p) :: rest) = sectionFlat rest)
    ∧ (∀ t s, renderItem t s
        = t ++ "\n" ++ String.mk (List.replicate t.length '-') ++ "\n\n"
          ++ s ++ "\n\n\n")
    ∧ (∀ t : String, (String.mk (List.replicate t.length '-')).length = t.length) := by
  refine ⟨flush_content_open c items hopen hsec, fun t s rest => rfl,
    fun t p rest => rfl, fun t s => rfl, fun t => ?_⟩
  exact List.length_replicate t.length '-'

/-- Witness for C7 at a concrete collector holding one text item and one
file item: the flush emits the file member and the single text member in
order. -/
theorem c7_flush_order_witness :
    flush_content ⟨"ar", true, [], some [("T", .text "x"), ("F", .file "/p")],
      some "s", "root", []⟩ =
      .ok { (⟨"ar", true, [], some [("T", .text "x"), ("F", .file "/p")],
        some "s", "root", []⟩ : State) with
        members := ([] : List Member) ++ fileMembers [("T", .text "x"), ("F", .file "/p")] ++
          (if sectionHasText [("T", .text "x"), ("F", .file "/p")] then
            [.text ("root" ++ "/" ++ optStr (some "s"))
              (sectionFlat [("T", .text "x"), ("F", .file "/p")])]
          else []),
        console := ([] : List ConsoleLine) ++ filePuts [("T", .text "x"), ("F", .file "/p")] } :=
  (c7_flush_order ⟨"ar", true, [], some [("T", .text "x"), ("F", .file "/p")],
    some "s", "root", []⟩ [("T", .text "x"), ("F", .file "/p")] (by decide) (by decide)).1

/-- C8: opening an already-open archive raises the already-opened error (the
operation returns no new state, so the first handle is untouched); closing a
collector whose archive is not open raises the already-closed error, and in
particular a second close after a successful close raises it. -/
theorem c8_reopen_reclose_errors (c : State) :
    (c.isOpen = true → open' c = .error "Archive already opened.")
    ∧ (c.isOpen = false → close c = .error "Archive already closed")
    ∧ (∀ c₁, close c = .ok c₁ → close c₁ = .error "Archive already closed") := by
  refine ⟨fun h => by simp [open', h], fun h => by simp [close, h],
    fun c₁ h => ?_⟩
  have hclosed : c₁.isOpen = false := by
    unfold close at h
    cases ho : c.isOpen with
    | false => rw [ho] at h; simp at h
    | true =>
      rw [ho] at h
      simp only [Bool.not_true, Bool.false_eq_true, if_false, ite_false] at h
      cases hf : flush_content c with
      | error e => rw [hf] at h; simp [Bind.bind, Except.bind] at h
      | ok x =>
        rw [hf] at h
        simp only [Bind.bind, Except.bind, pure, Except.pure, Except.ok.injEq] at h
        rw [← h]
  simp [close, hclosed]

/-- Witness for C8 at concrete collectors: a fresh open collector rejects a
second open, a fresh collector rejects close, and close right after open
succeeds while the next close errors. -/
theorem c8_reopen_reclose_errors_witness :
    open' ⟨"ar", true, [], none, none, "root", []⟩ = .error "Archive already opened."
    ∧ close (init "ar" "root") = .error "Archive already closed"
    ∧ close ⟨"ar", false, [], none, none, "root", []⟩ = .error "Archive already closed" :=
  ⟨(c8_reopen_reclose_errors ⟨"ar", true, [], none, none, "root", []⟩).1 rfl,
   (c8_reopen_reclose_errors (init "ar" "root")).2.1 rfl,
   (c8_reopen_reclose_errors ⟨"ar", true, [], none, none, "root", []⟩).2.2
     ⟨"ar", false, [], none, none, "root", []⟩ (by rfl)⟩

/-- C9: close flushes the current section but neither clears the section
buffer nor resets its name; after a close that flushed a section with text
items, a second open (which truncates the archive file) followed by close
flushes the same retained content again, writing an identical text member a
second time. -/
theorem c9_close_retains_section (c : State)
    (items : List (String × SectionData)) (hopen : c.isOpen = true)
    (hsec : c.current_section = some items)
    (htext : sectionHasText items = true) :
    ∃ c₁ c₂ c₃,
      close c = .ok c₁
      ∧ c₁.current_section = some items
      ∧ c₁.current_section_name = c.current_section_name
      ∧ c₁.members = c.members ++ fileMembers items ++
          [.text (c.default_root ++ "/" ++ optStr c.current_section_name)
            (sectionFlat items)]
      ∧ open' c₁ = .ok c₂
      ∧ close c₂ = .ok c₃
      ∧ c₃.current_section = some items
      ∧ c₃.members = fileMembers items ++
          [.text (c.default_root ++ "/" ++ optStr c.current_section_name)
            (sectionFlat items)] := by
  have h1 : close c = .ok { c with
      isOpen := false,
      members := c.members ++ fileMembers items ++
        [.text (c.default_root ++ "/" ++ optStr c.current_section_name)
          (sectionFlat items)],
      console := c.console ++ filePuts items } := by
    unfold close
    rw [hopen]
    simp only [Bool.not_true, Bool.false_eq_true, if_false, ite_false,
      flush_content_open c items hopen hsec, htext, if_true, ite_true,
      Bind.bind, Except.bind, pure, Except.pure]
  have h2 : open' { c with
      isOpen := false,
      members := c.members ++ fileMembers items ++
        [.text (c.default_root ++ "/" ++ optStr c.current_section_name)
          (sectionFlat items)],
      console := c.console ++ filePuts items } = .ok { c with
      isOpen := true,
      members := [],
      console := c.console ++ filePuts items } := by
    simp [open']
  have h3 : close { c with
      isOpen := true,
      members := ([] : List Member),
      console := c.console ++ filePuts items } = .ok { c with
      isOpen := false,
      members := fileMembers items ++
        [.text (c.default_root ++ "/" ++ optStr c.current_section_name)
          (sectionFlat items)],
      console := c.console ++ filePuts items ++ filePuts items } := by
    unfold close
    simp only [Bool.not_true, Bool.false_eq_true, if_false, ite_false,
      flush_content_open { c with
        isOpen := true,
        members := ([] : List Member),
        console := c.console ++ filePuts items } items rfl (by simp [hsec]),
      htext, if_true, ite_true,
      Bind.bind, Except.bind, pure, Except.pure]
    simp [List.append_assoc]
  refine ⟨_, _, _, h1, by simp [hsec], rfl, rfl, h2, h3, by simp [hsec], rfl⟩

/-- Witness for C9 at a concrete collector: one text item, flushed once by
close and once more by the reopen-close pair. -/
theorem c9_close_retains_section_witness :
    ∃ c₁ c₂ c₃,
      close ⟨"ar", true, [], some [("T", .text "x")], some "a", "root", []⟩ = .ok c₁
      ∧ c₁.current_section = some [("T", .text "x")]
      ∧ c₁.current_section_name = some "a"
      ∧ c₁.members = [] ++ fileMembers [("T", .text "x")] ++
          [.text ("root" ++ "/" ++ optStr (some "a")) (sectionFlat [("T", .text "x")])]
      ∧ open' c₁ = .ok c₂
      ∧ close c₂ = .ok c₃
      ∧ c₃.current_section = some [("T", .text "x")]
      ∧ c₃.members = fileMembers [("T", .text "x")] ++
          [.text ("root" ++ "/" ++ optStr (some "a")) (sectionFlat [("T", .text "x")])] :=
  c9_close_retains_section ⟨"ar", true, [], some [("T", .text "x")], some "a", "root", []⟩
    [("T", .text "x")] (by decide) (by decide) (by decide)

/-- C10: writing or linking before any section has been begun (the
current-section state still holds its initial None) raises an exception
rather than being ignored: both operations fail on the missing buffer. -/
theorem c10_write_link_require_section (render : Val → String) (c : State)
    (t : String) (d : Val) (p : String) (hsec : c.current_section = none) :
    write render c t d = .error "NoneType object has no attribute append"
    ∧ link c t p = .error "NoneType object has no attribute append" := by
  constructor
  · simp [write, hsec]
  · simp [link, hsec]

/-- Witness for C10 at a freshly constructed (and even opened) collector:
write and link both raise before any add. -/
theorem c10_write_link_require_section_witness :
    write sampleRender ⟨"ar", true, [], none, none, "root", []⟩ "T" (.str "x")
      = .error "NoneType object has no attribute append"
    ∧ link ⟨"ar", true, [], none, none, "root", []⟩ "T" "/p"
      = .error "NoneType object has no attribute append" :=
  c10_write_link_require_section sampleRender
    ⟨"ar", true, [], none, none, "root", []⟩ "T" (.str "x") "/p" (by decide)

theorem fileMembers_append (a b : List (String × SectionData)) :
    fileMembers (a ++ b) = fileMembers a ++ fileMembers b := by
  induction a with
  | nil => simp [fileMembers]
  | cons it rest ih =>
    obtain ⟨t, d⟩ := it
    cases d <;> simp [fileMembers, ih]

/-- C2 counterexample: on a freshly opened collector, after beginning a
section and linking a file, the archive still has no members (the file was
not immediately appended), and when the section is then discarded and the
archive closed, the file is never archived at all: the run returns the
member list right after link and the member list after close, both empty. -/
theorem c2_counterexample :
    (do
      let c ← open' (init "ar" "root")
      let c ← add c "network"
      let c ← link c "hosts" "/etc/hosts"
      let afterLink := c.members
      let c := discard_current c none
      let c ← close c
      pure (afterLink, c.members)) =
    .ok (([] : List Member), ([] : List Member)) := by
  rfl

/-- C2 amended: a file passed to link is recorded as a file item of the
current section, leaving the archive unchanged at that point; it becomes its
own independent archive member under its own path only when the section is
flushed, and that happens even when the section holds no text item (so no
text member is produced); a section discarded before any flush loses the
linked file, which is then never archived. -/
theorem c2_amended_link_flushes_files (c : State)
    (items : List (String × SectionData)) (t p : String)
    (hopen : c.isOpen = true) (hsec : c.current_section = some items) :
    (link c t p = .ok { c with current_section := some (items ++ [(t, .file p)]) })
    ∧ (sectionHasText items = false →
        flush_content c = .ok { c with
          members := c.members ++ fileMembers items,
          console := c.console ++ filePuts items })
    ∧ fileMembers (items ++ [(t, .file p)]) = fileMembers items ++ [.file p]
    ∧ flush_content (discard_current c none) = .ok (discard_current c none) := by
  refine ⟨link_some c t p items hsec, fun hnot => ?_, ?_, ?_⟩
  · rw [flush_content_open c items hopen hsec, hnot]
    simp
  · simp [fileMembers_append, fileMembers]
  · simp [flush_content, discard_current]

/-- Witness for the amended C2 at a concrete collector holding only one file
item: link records the item, flush archives both files with no text member,
and flushing a discarded section archives nothing. -/
theorem c2_amended_link_flushes_files_witness :
    (link ⟨"ar", true, [], some [("F", .file "/q")], some "net", "root", []⟩
        "hosts" "/etc/hosts" =
      .ok { (⟨"ar", true, [], some [("F", .file "/q")], some "net", "root", []⟩ : State) with
            current_section := some ([("F", .file "/q")] ++ [("hosts", .file "/etc/hosts")]) })
    ∧ (sectionHasText [("F", .file "/q")] = false →
        flush_content ⟨"ar", true, [], some [("F", .file "/q")], some "net", "root", []⟩ =
          .ok { (⟨"ar", true, [], some [("F", .file "/q")], some "net", "root", []⟩ : State) with
                members := ([] : List Member) ++ fileMembers [("F", .file "/q")],
                console := ([] : List ConsoleLine) ++ filePuts [("F", .file "/q")] })
    ∧ fileMembers ([("F", .file "/q")] ++ [("hosts", .file "/etc/hosts")])
        = fileMembers [("F", .file "/q")] ++ [.file "/etc/hosts"]
    ∧ flush_content (discard_current
        ⟨"ar", true, [], some [("F", .file "/q")], some "net", "root", []⟩ none) =
      .ok (discard_current
        ⟨"ar", true, [], some [("F", .file "/q")], some "net", "root", []⟩ none) :=
  c2_amended_link_flushes_files
    ⟨"ar", true, [], some [("F", .file "/q")], some "net", "root", []⟩
    [("F", .file "/q")] "hosts" "/etc/hosts" (by decide) (by decide)

theorem splitDot_ne_nil (l : List Char) : splitDot l ≠ [] := by
  induction l with
  | nil => simp [splitDot]
  | cons c rest ih =>
    by_cases h : c = '.'
    · simp [splitDot, h]
    · simp only [splitDot, if_neg h]
      cases hs : splitDot rest with
      | nil => exact absurd hs ih
      | cons g gs => simp

theorem splitDot_length (l : List Char) :
    (splitDot l).length = l.count '.' + 1 := by
  induction l with
  | nil => simp [splitDot]
  | cons c rest ih =>
    by_cases h : c = '.'
    · subst h
      simp only [splitDot, List.length_cons, List.count_cons]
      simp
      exact ih
    · simp only [splitDot, if_neg h]
      cases hs : splitDot rest with
      | nil => exact absurd hs (splitDot_ne_nil rest)
      | cons g gs =>
        rw [hs] at ih
        simp only [List.length_cons] at ih ⊢
        rw [List.count_cons]
        simp [h, Ne.symm h]
        omega

theorem pyGet_dictSet (m : List (String × Val)) (k k' : String) (v : Val) :
    pyGet (dictSet m k' v) k = if k' = k then some v else pyGet m k := by
  induction m with
  | nil => simp [dictSet, pyGet]
  | cons p rest ih =>
    obtain ⟨a, b⟩ := p
    by_cases h : a = k'
    · subst h
      simp only [dictSet, if_pos rfl, pyGet]
      by_cases h2 : a = k <;> simp [h2]
    · simp only [dictSet, if_neg h, pyGet, ih]
      by_cases h2 : a = k
      · subst h2
        simp [Ne.symm h]
      · simp [h2]

theorem pyGet_dictUpdate (ps : List (String × Val)) (m : List (String × Val))
    (k : String) :
    pyGet (dictUpdate m ps) k
      = ps.foldl (fun a p => if p.1 = k then some p.2 else a) (pyGet m k) := by
  induction ps generalizing m with
  | nil => simp [dictUpdate]
  | cons p ps ih =>
    simp only [dictUpdate, List.foldl_cons]
    rw [show List.foldl (fun acc q => dictSet acc q.1 q.2) (dictSet m p.1 p.2) ps
        = dictUpdate (dictSet m p.1 p.2) ps from rfl]
    rw [ih, pyGet_dictSet]

theorem argsFold_fst (args : List RawArg) :
    ∀ (pos : List Val) (kw : List (String × Val)),
      (args.foldl actionArgsFold (pos, kw)).1 = pos ++ bareArgs args := by
  induction args with
  | nil =>
    intro pos kw
    simp [bareArgs]
  | cons r rest ih =>
    intro pos kw
    cases r with
    | bare v =>
      simp only [List.foldl_cons, actionArgsFold, ih, bareArgs,
        List.filterMap_cons]
      simp [bareArgs]
    | kw pairs =>
      simp only [List.foldl_cons, actionArgsFold, ih, bareArgs,
        List.filterMap_cons]

theorem argsFold_snd (args : List RawArg) (k : String) :
    ∀ (pos : List Val) (kw : List (String × Val)),
      pyGet (args.foldl actionArgsFold (pos, kw)).2 k
        = args.foldl
            (fun acc r =>
              match r with
              | .bare _ => acc
              | .kw pairs =>
                  pairs.foldl (fun a p => if p.1 = k then some p.2 else a) acc)
            (pyGet kw k) := by
  induction args with
  | nil =>
    intro pos kw
    simp
  | cons r rest ih =>
    intro pos kw
    cases r with
    | bare v => simp only [List.foldl_cons, actionArgsFold, ih]
    | kw pairs =>
      simp only [List.foldl_cons, actionArgsFold, ih, pyGet_dictUpdate]

/-- C6: resolution classifies an action as internal exactly when its name
contains no dot; bare args are appended to positional args in source order;
keyword lookups on the resolved kwargs return the last binding of the key
among the dict args (last wins on collision); the description defaults to
Action for name when info is absent; and the target is the action name. -/
theorem c6_action_resolution (a : ActionMeta) :
    ((_get_action a).2.intfunc = true ↔ '.' ∉ a.name.toList)
    ∧ (_get_action a).2.arg = bareArgs a.args
    ∧ (∀ k, pyGet (_get_action a).2.kwargs k = lastKw a.args k)
    ∧ (_get_action a).1 = a.info.getD ("Action for " ++ a.name)
    ∧ (_get_action a).2.fn = a.name := by
  refine ⟨?_, ?_, fun k => ?_, rfl, rfl⟩
  · show (((splitDot a.name.toList).length - 1 == 0) = true ↔ _)
    rw [splitDot_length]
    simp [List.count_eq_zero]
  · show (a.args.foldl actionArgsFold ([], [])).1 = _
    rw [argsFold_fst]
    simp
  · show pyGet (a.args.foldl actionArgsFold ([], [])).2 k = _
    rw [argsFold_snd]
    rfl

/-- C4: when the backend raises an arbitrary exception, _local_call catches
it, returns exactly the string Unhandled exception occurred followed by the
exception message and logs it as a console error; for a SystemExit it
returns exactly Data is not available at this moment, also logged; in
either case the engine writes that exact value as the section item for the
action under its info title and proceeds with the remaining actions of the
same category. -/
theorem c4_exception_isolation (render : Val → String) (backend : Backend)
    (reg : IntRegistry) (c : State) (items : List (String × SectionData))
    (a : ActionMeta) (rest : List ActionMeta) (m : String)
    (hsec : c.current_section = some items)
    (hext : (_get_action a).2.intfunc = false) :
    (backend (_get_action a).2 = .exc m →
      _local_call backend c (_get_action a).2 =
        (.str ("Unhandled exception occurred: " ++ m),
         { c with console :=
            c.console ++ [.error ("Unhandled exception occurred: " ++ m)] })
      ∧ runActions render backend reg c (a :: rest) =
          runActions render backend reg { c with
            current_section := some (items ++ [((_get_action a).1,
              .text (render (wrapData
                (.str ("Unhandled exception occurred: " ++ m)))))]),
            console := c.console ++
              [.put ("Collecting " ++ (_get_action a).1.toLower),
               .error ("Unhandled exception occurred: " ++ m)] } rest)
    ∧ (backend (_get_action a).2 = .sysExit →
      _local_call backend c (_get_action a).2 =
        (.str "Data is not available at this moment",
         { c with console :=
            c.console ++ [.error "Data is not available at this moment"] })
      ∧ runActions render backend reg c (a :: rest) =
          runActions render backend reg { c with
            current_section := some (items ++ [((_get_action a).1,
              .text (render (wrapData
                (.str "Data is not available at this moment"))))]),
            console := c.console ++
              [.put ("Collecting " ++ (_get_action a).1.toLower),
               .error "Data is not available at this moment"] } rest) := by
  constructor
  · intro hb
    refine ⟨by simp [_local_call, hb], ?_⟩
    rw [runActions, runActions, List.foldlM_cons]
    simp only [runAction, hext, Bool.not_false, if_true, ite_true,
      _local_call, hb]
    rw [write_some render _ _ _ items (by simpa using hsec)]
    simp [Bind.bind, Except.bind, List.append_assoc]
  · intro hb
    refine ⟨by simp [_local_call, hb], ?_⟩
    rw [runActions, runActions, List.foldlM_cons]
    simp only [runAction, hext, Bool.not_false, if_true, ite_true,
      _local_call, hb]
    rw [write_some render _ _ _ items (by simpa using hsec)]
    simp [Bind.bind, Except.bind, List.append_assoc]

/-- Witness for C4 at a concrete category state and action, with a backend
raising an exception with message boom and one raising SystemExit. -/
theorem c4_exception_isolation_witness :
    (_local_call (fun _ => .exc "boom")
        ⟨"ar", true, [], some [], some "cat", "root", []⟩
        (_get_action ⟨"test.ping", some "Ping", []⟩).2 =
      (.str ("Unhandled exception occurred: " ++ "boom"),
       { (⟨"ar", true, [], some [], some "cat", "root", []⟩ : State) with
         console := ([] : List ConsoleLine) ++
           [.error ("Unhandled exception occurred: " ++ "boom")] })
      ∧ runActions sampleRender (fun _ => .exc "boom") sampleRegistry
          ⟨"ar", true, [], some [], some "cat", "root", []⟩
          [⟨"test.ping", some "Ping", []⟩] =
        runActions sampleRender (fun _ => .exc "boom") sampleRegistry
          { (⟨"ar", true, [], some [], some "cat", "root", []⟩ : State) with
            current_section := some (([] : List (String × SectionData)) ++
              [((_get_action ⟨"test.ping", some "Ping", []⟩).1,
                .text (sampleRender (wrapData
                  (.str ("Unhandled exception occurred: " ++ "boom")))))]),
            console := ([] : List ConsoleLine) ++
              [.put ("Collecting " ++
                (_get_action ⟨"test.ping", some "Ping", []⟩).1.toLower),
               .error ("Unhandled exception occurred: " ++ "boom")] } [])
    ∧ (_local_call (fun _ => .sysExit)
        ⟨"ar", true, [], some [], some "cat", "root", []⟩
        (_get_action ⟨"test.ping", some "Ping", []⟩).2 =
      (.str "Data is not available at this moment",
       { (⟨"ar", true, [], some [], some "cat", "root", []⟩ : State) with
         console := ([] : List ConsoleLine) ++
           [.error "Data is not available at this moment"] })
      ∧ runActions sampleRender (fun _ => .sysExit) sampleRegistry
          ⟨"ar", true, [], some [], some "cat", "root", []⟩
          [⟨"test.ping", some "Ping", []⟩] =
        runActions sampleRender (fun _ => .sysExit) sampleRegistry
          { (⟨"ar", true, [], some [], some "cat", "root", []⟩ : State) with
            current_section := some (([] : List (String × SectionData)) ++
              [((_get_action ⟨"test.ping", some "Ping", []⟩).1,
                .text (sampleRender (wrapData
                  (.str "Data is not available at this moment"))))]),
            console := ([] : List ConsoleLine) ++
              [.put ("Collecting " ++
                (_get_action ⟨"test.ping", some "Ping", []⟩).1.toLower),
               .error "Data is not available at this moment"] } []) :=
  ⟨(c4_exception_isolation sampleRender (fun _ => .exc "boom") sampleRegistry
      ⟨"ar", true, [], some [], some "cat", "root", []⟩ []
      ⟨"test.ping", some "Ping", []⟩ [] "boom" (by decide) (by decide)).1 rfl,
   (c4_exception_isolation sampleRender (fun _ => .sysExit) sampleRegistry
      ⟨"ar", true, [], some [], some "cat", "root", []⟩ []
      ⟨"test.ping", some "Ping", []⟩ [] "boom" (by decide) (by decide)).2 rfl⟩

theorem _get_action_noargs (nm : String) (inf : Option String) :
    _get_action ⟨nm, inf, []⟩ =
      (inf.getD ("Action for " ++ nm),
       ⟨nm, [], [], (splitDot nm.toList).length - 1 == 0⟩) := rfl

/-- C1 counterexample: a profile with one category holding one external
action (test.ping, backend returns EXT) followed by one internal action
(myfn, which links one file) yields an archive with no text member for the
category at all: the internal dispatch discarded the section holding the
external output, and the only member is the linked file. -/
theorem c1_counterexample :
    (do
      let c ← open' (init "ar" "root")
      let c ← collect_master_data sampleRender sampleBackend sampleRegistry
        sampleProfile c
      close c) =
      .ok ⟨"ar", false, [.file "/etc/hosts"],
        some [("hosts", .file "/etc/hosts")], none, "root",
        [.put "category", .put ("Collecting " ++ "Ping".toLower),
         .put "/etc/hosts"]⟩
    ∧ textMemberCount [Member.file "/etc/hosts"] = 0 := by
  refine ⟨?_, ?_⟩ <;> rfl

/-- C1 amended: for a profile with one category holding one external action
followed by one internal action, collect_master_data produces an archive
with no text member for the category: before invoking the internal function
the engine discards the current section, dropping the external action's
already-written output together with the section name, so the closed
archive holds exactly the file the internal action linked. -/
theorem c1_amended_discard_loses_category (render : Val → String)
    (backend : Backend) (reg : IntRegistry)
    (n r cat extName info out intName ftitle fpath : String)
    (hext : (_get_action ⟨extName, some info, []⟩).2.intfunc = false)
    (hint : (_get_action ⟨intName, none, []⟩).2.intfunc = true)
    (hb : backend (_get_action ⟨extName, some info, []⟩).2 = .ok (.str out))
    (hreg : reg intName = some (fun c _ _ => link c ftitle fpath)) :
    (do
      let c ← open' (init n r)
      let c ← collect_master_data render backend reg
        [(cat, [⟨extName, some info, []⟩, ⟨intName, none, []⟩])] c
      close c) =
    .ok ⟨n, false, [.file fpath], some [(ftitle, .file fpath)], none, r,
      [.put cat, .put ("Collecting " ++ info.toLower), .put fpath]⟩ := by
  have hextB : ((splitDot extName.data).length - 1 == 0) = false := hext
  have hintB : ((splitDot intName.data).length - 1 == 0) = true := hint
  have hbB : backend
      (⟨extName, [], [], (splitDot extName.data).length - 1 == 0⟩ : ActionConf) =
      .ok (.str out) := hb
  rw [hextB] at hbB
  simp [collect_master_data, runCategory, runActions, runAction, add,
    discard_current, _local_call, _internal_function_call, write, link,
    open', init, close, flush_content, flushLoop, optStr,
    _get_action_noargs, hextB, hintB, hbB, hreg,
    Bind.bind, Except.bind, pure, Except.pure, List.foldlM]

/-- Witness for the amended C1 at concrete names: external test.ping then
internal myfn linking the hosts file; the archive ends with only the file
member. -/
theorem c1_amended_discard_loses_category_witness :
    (do
      let c ← open' (init "ar" "root")
      let c ← collect_master_data sampleRender sampleBackend sampleRegistry
        [("category", [⟨"test.ping", some "Ping", []⟩, ⟨"myfn", none, []⟩])] c
      close c) =
    .ok ⟨"ar", false, [.file "/etc/hosts"], some [("hosts", .file "/etc/hosts")],
      none, "root",
      [.put "category", .put ("Collecting " ++ "Ping".toLower), .put "/etc/hosts"]⟩ :=
  c1_amended_discard_loses_category sampleRender sampleBackend sampleRegistry
    "ar" "root" "category" "test.ping" "Ping" "EXT" "myfn" "hosts" "/etc/hosts"
    (by decide) (by decide) (by rfl) (by rfl)

theorem pathExists_unlink_self (fs : FS) (p : String) :
    pathExists (unlink fs p) p = false := by
  simp [pathExists, unlink, List.mem_filter]

/-- C5: when the target archive path exists and the overwrite flag is not
set, the run emits only the already-exists warning, performs no collection
(the outcome does not depend on the collection phase at all), leaves the
filesystem untouched, and exits with the success code; when the flag is
set, the pre-flight check deletes the existing file and the run proceeds
exactly as the run on the filesystem without that file, with the overwrite
warning prepended to the console. -/
theorem c5_preflight_existing_archive (cfg : RunConfig) (fs : FS)
    (collect collect₂ : CollectPhase)
    (hex : pathExists fs cfg.support_archive = true) :
    (cfg.support_archive_force_overwrite = false →
      run cfg fs collect =
        { fs := fs,
          console := [.warning ("File " ++ cfg.support_archive ++ " already exists.")],
          exit_code := EX_OK }
      ∧ run cfg fs collect = run cfg fs collect₂)
    ∧ (cfg.support_archive_force_overwrite = true →
      _check_existing_archive_ cfg fs =
        (unlink fs cfg.support_archive,
         [.warning ("Overwriting existing archive: " ++ cfg.support_archive)],
         true)
      ∧ pathExists (unlink fs cfg.support_archive) cfg.support_archive = false
      ∧ run cfg fs collect =
          { run cfg (unlink fs cfg.support_archive) collect with
            console :=
              .warning ("Overwriting existing archive: " ++ cfg.support_archive) ::
                (run cfg (unlink fs cfg.support_archive) collect).console }) := by
  constructor
  · intro hf
    have hchk : _check_existing_archive_ cfg fs =
        (fs, [.warning ("File " ++ cfg.support_archive ++ " already exists.")],
         false) := by
      simp [_check_existing_archive_, hex, hf]
    constructor
    · simp [run, hchk, EX_OK]
    · simp [run, hchk]
  · intro hf
    have hchk : _check_existing_archive_ cfg fs =
        (unlink fs cfg.support_archive,
         [.warning ("Overwriting existing archive: " ++ cfg.support_archive)],
         true) := by
      simp [_check_existing_archive_, hex, hf]
    refine ⟨hchk, pathExists_unlink_self fs _, ?_⟩
    have hchk2 : _check_existing_archive_ cfg (unlink fs cfg.support_archive) =
        (unlink fs cfg.support_archive, [], true) := by
      simp [_check_existing_archive_, pathExists_unlink_self]
    cases hc : collect (unlink fs cfg.support_archive) with
    | ok pr =>
      obtain ⟨fs', con'⟩ := pr
      simp [run, hchk, hchk2, hc, EX_OK, EX_SOFTWARE]
    | error e =>
      simp [run, hchk, hchk2, hc, EX_OK, EX_SOFTWARE, pathExists_unlink_self]

/-- Witness for C5 at a concrete configuration and filesystem where the
archive path exists: without the force flag the run only warns and exits
zero for two different collection phases; with the force flag the check
deletes the file and the run factors through the deleted filesystem. -/
theorem c5_preflight_existing_archive_witness :
    (run ⟨"/tmp/a.bz2", false⟩ ⟨["/tmp/a.bz2"]⟩ (fun f => .ok (f, [])) =
        { fs := ⟨["/tmp/a.bz2"]⟩,
          console := [.warning ("File " ++ "/tmp/a.bz2" ++ " already exists.")],
          exit_code := EX_OK }
      ∧ run ⟨"/tmp/a.bz2", false⟩ ⟨["/tmp/a.bz2"]⟩ (fun f => .ok (f, [])) =
          run ⟨"/tmp/a.bz2", false⟩ ⟨["/tmp/a.bz2"]⟩ (fun _ => .error "boom"))
    ∧ (_check_existing_archive_ ⟨"/tmp/a.bz2", true⟩ ⟨["/tmp/a.bz2"]⟩ =
        (unlink ⟨["/tmp/a.bz2"]⟩ "/tmp/a.bz2",
         [.warning ("Overwriting existing archive: " ++ "/tmp/a.bz2")], true)
      ∧ pathExists (unlink ⟨["/tmp/a.bz2"]⟩ "/tmp/a.bz2") "/tmp/a.bz2" = false
      ∧ run ⟨"/tmp/a.bz2", true⟩ ⟨["/tmp/a.bz2"]⟩ (fun f => .ok (f, [])) =
          { run ⟨"/tmp/a.bz2", true⟩ (unlink ⟨["/tmp/a.bz2"]⟩ "/tmp/a.bz2")
              (fun f => .ok (f, [])) with
            console :=
              .warning ("Overwriting existing archive: " ++ "/tmp/a.bz2") ::
                (run ⟨"/tmp/a.bz2", true⟩ (unlink ⟨["/tmp/a.bz2"]⟩ "/tmp/a.bz2")
                  (fun f => .ok (f, []))).console }) :=
  ⟨(c5_preflight_existing_archive ⟨"/tmp/a.bz2", false⟩ ⟨["/tmp/a.bz2"]⟩
      (fun f => .ok (f, [])) (fun _ => .error "boom") (by decide)).1 rfl,
   (c5_preflight_existing_archive ⟨"/tmp/a.bz2", true⟩ ⟨["/tmp/a.bz2"]⟩
      (fun f => .ok (f, [])) (fun _ => .error "boom") (by decide)).2 rfl⟩

end SaltSupportModel
